import Mathlib

/-!
Verification of the Cumulus granule ingest pipeline
(`packages/ingest/granule.js`, `tasks/sync-granule/index.js`).

The JavaScript source is shallowly embedded: JS objects become structures,
promise-returning methods become functions that thread an explicit object
store state (`S3State`) and return `Except` for rejection, and the effects
relevant to ordering claims are recorded in an explicit event trace.
Regular-expression semantics (`String.prototype.match`) are abstracted as a
`RegexEngine` parameter: `rmatch pattern s = some g` means `s` matches
`pattern` and the first capture group is `g`; `none` means no match.
-/

namespace Cumulus

/-- Abstract semantics of JavaScript `String.prototype.match` restricted to
what the source uses: match success and the first capture group. -/
structure RegexEngine where
  rmatch : String → String → Option String

/-- Truthiness test of `file.name.match(regex)` (a match object is truthy). -/
def rtest (re : RegexEngine) (pat s : String) : Bool :=
  (re.rmatch pat s).isSome

/-- JS string truthiness for an optional string field: `undefined` and the
empty string are falsy. -/
def truthy : Option String → Bool
  | none => false
  | some s => s ≠ ""

/-- Structural prefix test on character lists (first argument is the
candidate prefix).  The string-level operations below are written by
structural recursion over `String.data` so that closed evaluations reduce
definitionally. -/
def isPrefixChars : List Char → List Char → Bool
  | [], _ => true
  | _ :: _, [] => false
  | a :: as, b :: bs => a == b && isPrefixChars as bs

/-- JS `s.startsWith(pre)`. -/
def sStartsWith (s pre : String) : Bool :=
  isPrefixChars pre.data s.data

/-- JS `s.endsWith(suf)`. -/
def sEndsWith (s suf : String) : Bool :=
  isPrefixChars suf.data.reverse s.data.reverse

/-- JS `s.substr(n)` / Lean `String.drop`. -/
def sDrop (s : String) (n : Nat) : String :=
  String.mk (s.data.drop n)

/-- Drop `n` characters from the right. -/
def sDropRight (s : String) (n : Nat) : String :=
  String.mk (s.data.take (s.data.length - n))

/-- Split on the leftmost non-overlapping occurrences of a (non-empty)
separator, with explicit fuel to stay structurally recursive; `fuel` is
instantiated with the string length, which each step strictly decreases. -/
def splitOnAux (sep : List Char) : Nat → List Char → List Char → List (List Char)
  | _, [], acc => [acc.reverse]
  | 0, l, acc => [acc.reverse ++ l]
  | fuel + 1, c :: rest, acc =>
    if sep ≠ [] && isPrefixChars sep (c :: rest) then
      acc.reverse :: splitOnAux sep fuel ((c :: rest).drop sep.length) []
    else splitOnAux sep fuel rest (c :: acc)

/-- JS `s.split(sep)` for a non-empty separator. -/
def sSplitOn (s sep : String) : List String :=
  (splitOnAux sep.data s.data.length s.data []).map String.mk

/-- Join a list of strings with a separator. -/
def sIntercalate (sep : String) : List String → String
  | [] => ""
  | [x] => x
  | x :: xs => x ++ sep ++ sIntercalate sep xs

/-- Node `path.join` on already-normalized segments (the only shapes the
pipeline produces). -/
def pjoin (a b : String) : String :=
  if a = "" then b else if b = "" then a else a ++ "/" ++ b

/-- `if (fullKey[0] === '/') fullKey = fullKey.substr(1)` in `ingestFile`. -/
def stripLeadingSlash (s : String) : String :=
  if sStartsWith s "/" then sDrop s 1 else s

/-- Drop trailing `/` characters, as the `url-join` library normalizes them. -/
def stripTrailingSlashes (s : String) : String :=
  String.mk ((s.toList.reverse.dropWhile (· = '/')).reverse)

/-- The `url-join` library applied to two segments, as in
`urljoin(destination.filepath, file.name)`.  Written right-associated so the
destination path is literally an initial segment of the result. -/
def urljoinStr (a b : String) : String :=
  if a = "" then b else stripTrailingSlashes a ++ ("/" ++ b)

/-- `aws.buildS3Uri`. -/
def buildS3Uri (bucket key : String) : String :=
  "s3://" ++ bucket ++ "/" ++ key

/-- `aws.parseS3Uri`: bucket is everything up to the first `/` after the
scheme, key is the rest. -/
def parseS3Uri (uri : String) : String × String :=
  let rest := if sStartsWith uri "s3://" then sDrop uri 5 else uri
  (((sSplitOn rest "/").headD ""), sIntercalate "/" (sSplitOn rest "/").tail)

/-- JS `s.indexOf(sub) > 0` for the substring `.md5`
(`filterChecksumFiles`): the substring occurs, and not at position 0. -/
def indexOfPos (s sub : String) : Bool :=
  let parts := sSplitOn s sub
  decide (parts.length > 1) && (parts.headD "" != "")

/-- JS `s.replace(sub, '')`: remove the first occurrence of `sub`. -/
def replaceFirst (s sub : String) : String :=
  let parts := sSplitOn s sub
  parts.headD "" ++ sIntercalate sub parts.tail

deriving instance DecidableEq for Except

/-- The destination object store: an association list from (bucket, key) to
object content; later writes shadow earlier ones. -/
abbrev S3State := List ((String × String) × String)

def s3Put (st : S3State) (bucket key content : String) : S3State :=
  ((bucket, key), content) :: st

def s3Lookup (st : S3State) (bucket key : String) : Option String :=
  st.lookup (bucket, key)

/-- `aws.s3ObjectExists({Bucket, Key})`. -/
def s3ObjectExists (st : S3State) (bucket key : String) : Bool :=
  (s3Lookup st bucket key).isSome

/-- `aws.s3().deleteObject`. -/
def s3Delete (st : S3State) (bucket key : String) : S3State :=
  st.filter (fun e => e.1 ≠ (bucket, key))

/-- One collection file entry (`collection.files[i]`): a matching regular
expression, a bucket key, and an optional `url_path` (empty = unset, which
is what JS truthiness tests see). -/
structure FileRule where
  regex : String
  bucket : String
  url_path : String := ""
deriving Repr, DecidableEq

/-- The collection configuration object, restricted to the fields the
granule pipeline reads. -/
structure Collection where
  name : String := ""
  dataType : String := ""
  version : String := ""
  granuleIdExtraction : String
  files : List FileRule
  url_path : String := ""
deriving Repr, DecidableEq

/-- A granule file object as it flows through `Granule.ingestFile` and
`moveGranuleFiles`; optional fields are absent (`none`) until set. -/
structure GFile where
  name : String := ""
  path : String := ""
  bucket : String := ""
  filepath : String := ""
  filename : String := ""
  checksumType : Option String := none
  checksumValue : Option String := none
  url_path : Option String := none
  fileStagingDir : Option String := none
deriving Repr, DecidableEq, Inhabited

/-- Events of the effectful steps of `Granule.ingestFile`, in program
order.  `enableVersioningStart` records that `enableBucketVersioning` was
invoked on the given bucket (the call is not awaited in the source, so the
event marks initiation). -/
inductive S3Event where
  | existsCheck (bucket key : String) (result : Bool)
  | enableVersioningStart (bucket : String)
  | putObject (bucket key : String)
deriving Repr, DecidableEq

/-- The error taxonomy of `@cumulus/common/errors` used by these claims. -/
inductive IngestError where
  | invalidChecksum (msg : String)
  | resourcesLocked (msg : String)
  | jsTypeError (msg : String)
  | generic (msg : String)
deriving Repr, DecidableEq

/-- The state of one `Granule` ingest object: configuration plus the
abstracted external world (remote file contents, hash algorithms). -/
structure GranuleIngest where
  re : RegexEngine
  collection : Collection
  fileStagingDir : String
  checksumFiles : List (String × GFile)
  remoteContent : String → String
  hashContent : String → String → String

/-- `Granule.filterChecksumFiles` applied over `granule.files` (as in
`ingest()`): `.md5` companions are removed from the download list and
recorded in the `checksumFiles` map keyed by the data file's name; later
entries shadow earlier ones, as JS property assignment does. -/
def filterChecksumFiles (files : List GFile) : List GFile × List (String × GFile) :=
  files.foldl
    (fun (acc : List GFile × List (String × GFile)) f =>
      if indexOfPos f.name ".md5" then
        (acc.1, (replaceFirst f.name ".md5", f) :: acc.2)
      else (acc.1 ++ [f], acc.2))
    ([], [])

/-- `Granule.getChecksumFromFile`: embedded checksum if both fields are
truthy, else the downloaded `.md5` sidecar (first space-separated token,
type assumed `md5`), else no checksum. -/
def getChecksumFromFile (ctx : GranuleIngest) (file : GFile) :
    Option String × Option String :=
  if truthy file.checksumType && truthy file.checksumValue then
    (file.checksumType, file.checksumValue)
  else
    match ctx.checksumFiles.lookup file.name with
    | some checksumInfo =>
      let checksumRemotePath := pjoin checksumInfo.path checksumInfo.name
      let checksumFile := ctx.remoteContent checksumRemotePath
      (some "md5", some ((sSplitOn checksumFile " ").headD ""))
    | none => (none, none)

/-- `Granule.validateChecksum`: skip when no truthy type/value, otherwise
hash the staged object and fail with `InvalidChecksum` on mismatch. -/
def validateChecksum (ctx : GranuleIngest) (file : GFile) (st : S3State)
    (bucket key : String) : Except IngestError Unit :=
  let tv := getChecksumFromFile ctx file
  if !(truthy tv.1) || !(truthy tv.2) then .ok ()
  else
    let sum := ctx.hashContent (tv.1.getD "") ((s3Lookup st bucket key).getD "")
    if tv.2.getD "" ≠ sum then
      .error (.invalidChecksum ("Invalid checksum for " ++ file.name))
    else .ok ()

/-- `Granule.getUrlPath`: iterate all collection file rules, keeping the
`url_path` of the last matching rule whose `url_path` is truthy; fall back
to the collection-level `url_path`. -/
def getUrlPath (ctx : GranuleIngest) (file : GFile) : String :=
  let urlPath := ctx.collection.files.foldl
    (fun acc fileDef =>
      if rtest ctx.re fileDef.regex file.name && fileDef.url_path != "" then
        fileDef.url_path
      else acc) ""
  if urlPath = "" then ctx.collection.url_path else urlPath

/-- `Granule.ingestFile`: existence check, duplicate handling, stream-copy
to the staging key, checksum validation, then the updated file record.
Returns the result, the destination store state, and the effect trace. -/
def ingestFile (ctx : GranuleIngest) (st : S3State) (file : GFile)
    (bucket duplicateHandling : String) :
    Except IngestError GFile × S3State × List S3Event :=
  let stagedKey := pjoin ctx.fileStagingDir file.name
  let exists0 := s3ObjectExists st bucket stagedKey
  let ev0 := [S3Event.existsCheck bucket stagedKey exists0]
  if exists0 && duplicateHandling == "skip" then (.ok file, st, ev0)
  else
    let ev1 :=
      if duplicateHandling == "version" then
        ev0 ++ [S3Event.enableVersioningStart file.bucket]
      else ev0
    let fileRemotePath := pjoin file.path file.name
    let fullKey := stripLeadingSlash stagedKey
    let content := ctx.remoteContent fileRemotePath
    let st1 := s3Put st bucket fullKey content
    let filename := buildS3Uri bucket fullKey
    let ev2 := ev1 ++ [S3Event.putObject bucket fullKey]
    match validateChecksum ctx file st1 bucket fullKey with
    | .error e => (.error e, st1, ev2)
    | .ok _ =>
      (.ok { file with
               filename := filename
               fileStagingDir := some ctx.fileStagingDir
               url_path := some (getUrlPath ctx file)
               bucket := bucket },
       st1, ev2)

/-! ### The Discover class (`Discover.discover`, `Discover.setGranuleInfo`) -/

/-- A raw listing entry as returned by the protocol `list()`. -/
structure DFile where
  name : String
deriving Repr, DecidableEq

/-- A listing entry after `setGranuleInfo` added `granuleId`, `bucket` and
`url_path`. -/
structure DFileInfo where
  name : String
  granuleId : String
  bucket : String
  url_path : String
deriving Repr, DecidableEq

/-- A file inside a returned granule record, after
`omit(file, 'granuleId')`. -/
structure DFileOut where
  name : String
  bucket : String
  url_path : String
deriving Repr, DecidableEq

/-- `omit(file, 'granuleId')`. -/
def omitGranuleId (f : DFileInfo) : DFileOut :=
  { name := f.name, bucket := f.bucket, url_path := f.url_path }

/-- A granule record as built at the end of `Discover.discover`. -/
structure GranuleRec where
  granuleId : String
  dataType : String
  version : String
  files : List DFileOut
deriving Repr, DecidableEq

/-- The state of one `Discover` object: configuration plus the abstract
regex engine; `buckets` maps a bucket key to `this.buckets[key].name`. -/
structure DiscoverCtx where
  re : RegexEngine
  collection : Collection
  buckets : String → String

/-- `Discover.fileTypeConfigForFile`: first collection file rule whose
regex matches the file name. -/
def fileTypeConfigForFile (ctx : DiscoverCtx) (file : DFile) : Option FileRule :=
  ctx.collection.files.find? (fun fileTypeConfig => rtest ctx.re fileTypeConfig.regex file.name)

/-- `Discover.setGranuleInfo`: extract the granule id (capture group 1 of
`granuleIdExtraction`), and add the bucket and `url_path` from the matching
file rule.  Only invoked in `discover` after both matches were checked. -/
def setGranuleInfo (ctx : DiscoverCtx) (file : DFile) : DFileInfo :=
  { name := file.name
    granuleId := (ctx.re.rmatch ctx.collection.granuleIdExtraction file.name).getD ""
    bucket := ctx.buckets (((fileTypeConfigForFile ctx file).map (·.bucket)).getD "")
    url_path :=
      match fileTypeConfigForFile ctx file with
      | some fileTypeConfig =>
        if fileTypeConfig.url_path ≠ "" then fileTypeConfig.url_path
        else ctx.collection.url_path
      | none => ctx.collection.url_path }

/-- The `discoveredFiles` local of `Discover.discover`: the listing filtered
by `granuleIdExtraction`, filtered by the presence of a file type config,
then mapped through `setGranuleInfo`.  A listing failure is caught and
logged, leaving the initial empty list. -/
def discoveredFilesOf (ctx : DiscoverCtx) (listing : Except Unit (List DFile)) :
    List DFileInfo :=
  match listing with
  | .error _ => []
  | .ok files =>
    ((files.filter (fun file => rtest ctx.re ctx.collection.granuleIdExtraction file.name)).filter
      (fun file => (fileTypeConfigForFile ctx file).isSome)).map (setGranuleInfo ctx)

/-- The `newFiles` local of `Discover.discover`:
`Promise.all` over the per-file `s3ObjectExists({Bucket: file.bucket, Key:
file.name})` checks, keeping the files that do not yet exist.  A rejected
check rejects the whole conjunction (there is no catch around it). -/
def checkNewFiles (existsCheck : String → String → Except Unit Bool) :
    List DFileInfo → Except Unit (List DFileInfo)
  | [] => .ok []
  | f :: rest =>
    match existsCheck f.bucket f.name with
    | .error e => .error e
    | .ok ex =>
      match checkNewFiles existsCheck rest with
      | .error e => .error e
      | .ok tail => .ok (if ex then tail else f :: tail)

/-- First-occurrence deduplication: the key order of `Object.keys` over the
object built by lodash `groupBy`. -/
def firstOccurrences : List String → List String
  | [] => []
  | a :: l => a :: (firstOccurrences l).filter (fun b => b ≠ a)

/-- The grouping step of `Discover.discover`: lodash
`groupBy(newFiles, file.granuleId)` followed by building one granule record
per key, each file stripped of its `granuleId` property. -/
def groupGranules (ctx : DiscoverCtx) (newFiles : List DFileInfo) : List GranuleRec :=
  (firstOccurrences (newFiles.map (·.granuleId))).map
    (fun granuleId =>
      { granuleId := granuleId
        dataType := ctx.collection.dataType
        version := ctx.collection.version
        files := (newFiles.filter (fun file => file.granuleId == granuleId)).map omitGranuleId })

/-- `Discover.discover`. -/
def discover (ctx : DiscoverCtx) (listing : Except Unit (List DFile))
    (existsCheck : String → String → Except Unit Bool) :
    Except Unit (List GranuleRec) :=
  match checkNewFiles existsCheck (discoveredFilesOf ctx listing) with
  | .error e => .error e
  | .ok newFiles => .ok (groupGranules ctx newFiles)

/-! ### The Resource Lock and `sync-granule`'s `download` -/

/-- The lock lease store: the set of held (provider id, granule id) keys. -/
abbrev LockState := List (String × String)

/-- Modelled from the spec: the Resource Lock module
(`@cumulus/ingest/lock`) is not among the source files; §4.4 specifies
`acquire(provider, granuleId)` as create-if-absent on the lease record
(retried with backoff, returning false when the lock cannot be obtained)
and `release(provider, granuleId)` as unconditional deletion of the lease.
`lockProceed` models a completed `lock.proceed` call: true and a new lease
when the key is free, false otherwise. -/
def lockProceed (st : LockState) (providerId granuleId : String) : Bool × LockState :=
  if (providerId, granuleId) ∈ st then (false, st)
  else (true, (providerId, granuleId) :: st)

/-- Modelled from the spec: `lock.removeLock` deletes the lease
unconditionally (§4.4 `release`). -/
def removeLock (st : LockState) (providerId granuleId : String) : LockState :=
  st.filter (fun k => k ≠ (providerId, granuleId))

/-- Lock operations performed by `download`, in order. -/
inductive LockEvent where
  | acquired (providerId granuleId : String)
  | released (providerId granuleId : String)
deriving Repr, DecidableEq

/-- The provider configuration object, restricted to the field `download`
uses for lock release. -/
structure ProviderRec where
  id : String
deriving Repr, DecidableEq

/-- A granule as seen by `download`, restricted to the field it reads. -/
structure GranRec where
  granuleId : String
deriving Repr, DecidableEq

/-- The `for (const g of granules)` loop of `download`: on a per-granule
ingest failure, `lock.removeLock(bucket, provider.id, g.granuleId)` is
called with the failing granule's id and the error is rethrown; after the
loop, `lock.removeLock(bucket, provider.id, granules[0].granuleId)`. -/
def downloadLoop (ing : GranRec → Except IngestError GranRec)
    (providerId : String) (locks : LockState) (evs : List LockEvent)
    (acc : List GranRec) (firstGranuleId : String) :
    List GranRec → Except IngestError (List GranRec) × LockState × List LockEvent
  | [] =>
    (.ok acc.reverse, removeLock locks providerId firstGranuleId,
     evs ++ [.released providerId firstGranuleId])
  | g :: rest =>
    match ing g with
    | .ok r => downloadLoop ing providerId locks evs (r :: acc) firstGranuleId rest
    | .error e =>
      (.error e, removeLock locks providerId g.granuleId,
       evs ++ [.released providerId g.granuleId])

/-- `download` from `tasks/sync-granule/index.js`, with the per-granule
`ingest.ingest(g, bucket)` call abstracted as `ing`.  The lock is acquired
with `granules[0].granuleId` (an empty granule list faults on
`granules[0].granuleId` before any lock operation). -/
def download (ing : GranRec → Except IngestError GranRec) (locks : LockState)
    (provider : ProviderRec) (granules : List GranRec) :
    Except IngestError (List GranRec) × LockState × List LockEvent :=
  match granules with
  | [] => (.error (.jsTypeError "Cannot read property granuleId of undefined"), locks, [])
  | g0 :: _ =>
    let p := lockProceed locks provider.id g0.granuleId
    if p.1 then
      downloadLoop ing provider.id p.2 [.acquired provider.id g0.granuleId] []
        g0.granuleId granules
    else
      (.error (.resourcesLocked "Download lock remained in place after multiple tries"),
       p.2, [])

/-! ### `moveGranuleFiles` -/

/-- One entry of the ordered destination list passed to
`moveGranuleFiles`. -/
structure MoveDest where
  regex : String
  bucket : String
  filepath : String
deriving Repr, DecidableEq

/-- The per-file record update of `moveGranuleFiles`: the first destination
whose regex matches the file name wins; a matched file gets the
destination bucket and `urljoin(destination.filepath, file.name)` as its
key; an unmatched file only has `filepath` set from its parsed
`filename`. -/
def moveFileRecord (re : RegexEngine) (destinations : List MoveDest) (file : GFile) : GFile :=
  match destinations.find? (fun dest => rtest re dest.regex file.name) with
  | some destination =>
    let targetKey := urljoinStr destination.filepath file.name
    { file with
        bucket := destination.bucket
        filepath := targetKey
        filename := buildS3Uri destination.bucket targetKey }
  | none => { file with filepath := (parseS3Uri file.filename).2 }

/-- The store effect of one iteration: for a matched file, `copyObject`
from the parsed source location to the target then `deleteObject` of the
source (`moveGranuleFile`); an unmatched file is not touched. -/
def moveGranuleFilesStep (re : RegexEngine) (destinations : List MoveDest)
    (st : S3State) (file : GFile) : S3State × GFile :=
  match destinations.find? (fun dest => rtest re dest.regex file.name) with
  | some destination =>
    let parsed := parseS3Uri file.filename
    let targetKey := urljoinStr destination.filepath file.name
    let content := (s3Lookup st parsed.1 parsed.2).getD ""
    (s3Delete (s3Put st destination.bucket targetKey content) parsed.1 parsed.2,
     moveFileRecord re destinations file)
  | none => (st, moveFileRecord re destinations file)

/-- The outcome of `moveGranuleFiles`: the store, the updated file records,
whether (and for which file) the CMR metadata rewrite was performed, and
whether the more-than-one-`.cmr.xml` error was logged. -/
structure MoveResult where
  store : S3State
  files : List GFile
  metadataUpdatedFor : Option String
  multipleCmrXmlLogged : Bool
deriving Repr, DecidableEq

/-- `moveGranuleFiles`: move every file per the destination list, then
update CMR metadata only when the (updated) file set contains exactly one
`.cmr.xml` file; with more than one, log an error and resolve without an
update. -/
def moveGranuleFiles (re : RegexEngine) (st : S3State) (sourceFiles : List GFile)
    (destinations : List MoveDest) : MoveResult :=
  let moved := sourceFiles.foldl
    (fun (acc : S3State × List GFile) f =>
      let stepped := moveGranuleFilesStep re destinations acc.1 f
      (stepped.1, acc.2 ++ [stepped.2]))
    (st, [])
  let xmlFile := moved.2.filter (fun file => sEndsWith file.name ".cmr.xml")
  match xmlFile with
  | [x] =>
    { store := moved.1, files := moved.2, metadataUpdatedFor := some x.name,
      multipleCmrXmlLogged := false }
  | [] =>
    { store := moved.1, files := moved.2, metadataUpdatedFor := none,
      multipleCmrXmlLogged := false }
  | _ =>
    { store := moved.1, files := moved.2, metadataUpdatedFor := none,
      multipleCmrXmlLogged := true }

/-! ### Concrete fixtures for the closed evaluations below -/

/-- A small concrete regex engine for closed evaluations:
`"hdfpat"` behaves like `^(.*)\.hdf$` (stem as capture group 1),
`"txtpat"` like `^(.*)\.txt$`, `"datapat"` like `^(.*)\.(hdf|met)$`,
and `"all"` like `.*` (matches every name). -/
def testEngine : RegexEngine :=
  { rmatch := fun pat s =>
      if pat = "hdfpat" then
        (if sEndsWith s ".hdf" then some (sDropRight s 4) else none)
      else if pat = "txtpat" then
        (if sEndsWith s ".txt" then some (sDropRight s 4) else none)
      else if pat = "datapat" then
        (if sEndsWith s ".hdf" || sEndsWith s ".met" then some (sDropRight s 4) else none)
      else if pat = "all" then some ""
      else none }

/-- Ingest context for the checksum-mismatch evaluation: the source content
of every remote file is `"BADDATA"`, whose `CKSUM` digest is `"999"`. -/
def ctxC1 : GranuleIngest :=
  { re := testEngine
    collection := { granuleIdExtraction := "hdfpat", files := [] }
    fileStagingDir := "file-staging"
    checksumFiles := []
    remoteContent := fun _ => "BADDATA"
    hashContent := fun t c => if t = "CKSUM" && c = "BADDATA" then "999" else "0" }

/-- A file carrying an embedded checksum that does not match its source
content's digest. -/
def fileC1 : GFile :=
  { name := "g.hdf", path := "granules",
    checksumType := some "CKSUM", checksumValue := some "42" }

/-- Per-granule ingest outcome function for the lock-release evaluation:
ingest succeeds for every granule except `"g2"`. -/
def ingFailSecond : GranRec → Except IngestError GranRec :=
  fun g => if g.granuleId = "g2" then .error (.generic "boom") else .ok g

/-- Per-granule ingest outcome function that always succeeds. -/
def ingAllOk : GranRec → Except IngestError GranRec := fun g => .ok g

/-- Discover context for the closed evaluations: ids are extracted by
`"datapat"` and every file matches the single collection rule. -/
def ctxD : DiscoverCtx :=
  { re := testEngine
    collection :=
      { granuleIdExtraction := "datapat"
        dataType := "MOD09GQ"
        version := "006"
        files := [{ regex := "all", bucket := "internal" }] }
    buckets := fun _ => "bkt" }

/-- A provider listing with two files of one granule. -/
def listingD : Except Unit (List DFile) := .ok [⟨"G1.hdf"⟩, ⟨"G1.met"⟩]

/-- Existence check that finds no staged object (everything is new). -/
def ecAllNew : String → String → Except Unit Bool := fun _ _ => .ok false

/-- Existence check whose underlying store call rejects. -/
def ecFail : String → String → Except Unit Bool := fun _ _ => .error ()

/-- Existence check that finds every object already staged. -/
def ecAllExist : String → String → Except Unit Bool := fun _ _ => .ok true

/-- The `newFiles` value of the discovery evaluation on `listingD`. -/
def nfD : List DFileInfo :=
  [{ name := "G1.hdf", granuleId := "G1", bucket := "bkt", url_path := "" },
   { name := "G1.met", granuleId := "G1", bucket := "bkt", url_path := "" }]

/-- The granule batch of the discovery evaluation on `listingD`. -/
def gsD : List GranuleRec :=
  [{ granuleId := "G1", dataType := "MOD09GQ", version := "006",
     files := [{ name := "G1.hdf", bucket := "bkt", url_path := "" },
               { name := "G1.met", bucket := "bkt", url_path := "" }] }]

/-- Ingest context in which the versioning-enablement target can be
distinguished from the staging destination: the file's configured bucket
differs from the bucket being written. -/
def ctxC6 : GranuleIngest :=
  { re := testEngine
    collection := { granuleIdExtraction := "hdfpat", files := [] }
    fileStagingDir := "stage"
    checksumFiles := []
    remoteContent := fun _ => "BYTES"
    hashContent := fun _ _ => "" }

/-- A file whose collection-configured bucket is `"final-bucket"`. -/
def fileC6 : GFile := { name := "f.hdf", path := "granules", bucket := "final-bucket" }

/-- Ingest context for the `url_path` resolution evaluation: two rules
match `"a.hdf"`; the first (`"hdfpat"`) matches strictly fewer names than
the second (`"all"`, which matches every name). -/
def ctxC7 : GranuleIngest :=
  { re := testEngine
    collection :=
      { granuleIdExtraction := "hdfpat"
        files := [{ regex := "hdfpat", bucket := "protected", url_path := "hdf-path" },
                  { regex := "all", bucket := "protected", url_path := "general-path" }]
        url_path := "collection-default" }
    fileStagingDir := ""
    checksumFiles := []
    remoteContent := fun _ => ""
    hashContent := fun _ _ => "" }

/-- Ingest context whose collection provides only a default `url_path`. -/
def ctxC7b : GranuleIngest :=
  { re := testEngine
    collection := { granuleIdExtraction := "hdfpat", files := [], url_path := "default-path" }
    fileStagingDir := ""
    checksumFiles := []
    remoteContent := fun _ => ""
    hashContent := fun _ _ => "" }

/-- Ingest context for the skip evaluation. -/
def ctxC5 : GranuleIngest :=
  { re := testEngine
    collection := { granuleIdExtraction := "hdfpat", files := [] }
    fileStagingDir := "file-staging"
    checksumFiles := []
    remoteContent := fun _ => "NEWDATA"
    hashContent := fun _ _ => "" }

/-- Ingest context for the checksum-source evaluation: the remote sidecar
document reads `"abc123 g.hdf"`. -/
def ctxC9 : GranuleIngest :=
  { re := testEngine
    collection := { granuleIdExtraction := "hdfpat", files := [] }
    fileStagingDir := "file-staging"
    checksumFiles := [("g.hdf", { name := "g.hdf.md5", path := "granules" })]
    remoteContent := fun _ => "abc123 g.hdf"
    hashContent := fun _ _ => "" }

/-- Move destinations for the move evaluation: `.txt` files go to bucket
`"B"` under path `"P"`. -/
def destsC8 : List MoveDest := [{ regex := "txtpat", bucket := "B", filepath := "P" }]

/-- A `.txt` file matching the move destination rule. -/
def fileTxt : GFile :=
  { name := "doc.txt", bucket := "origB", filepath := "k/doc.txt",
    filename := buildS3Uri "origB" "k/doc.txt" }

/-- An `.hdf` file matching no move destination rule. -/
def fileHdf : GFile :=
  { name := "g.hdf", bucket := "origB", filepath := "k/g.hdf",
    filename := buildS3Uri "origB" "k/g.hdf" }

/-- Two distinct `.cmr.xml` metadata files, for the multiple-metadata
evaluation. -/
def fileCmr1 : GFile :=
  { name := "a.cmr.xml", bucket := "origB", filepath := "k/a.cmr.xml",
    filename := buildS3Uri "origB" "k/a.cmr.xml" }

/-- Second `.cmr.xml` metadata file. -/
def fileCmr2 : GFile :=
  { name := "b.cmr.xml", bucket := "origB", filepath := "k/b.cmr.xml",
    filename := buildS3Uri "origB" "k/b.cmr.xml" }

/-! ### Supporting lemmas -/

theorem s3Lookup_put (st : S3State) (b k c : String) :
    s3Lookup (s3Put st b k c) b k = some c := by
  simp [s3Lookup, s3Put, List.lookup]

theorem validateChecksum_mismatch (ctx : GranuleIngest) (file : GFile) (st : S3State)
    (bucket key : String) (t v : String)
    (hget : getChecksumFromFile ctx file = (some t, some v))
    (ht : t ≠ "") (hv : v ≠ "")
    (hne : v ≠ ctx.hashContent t ((s3Lookup st bucket key).getD "")) :
    validateChecksum ctx file st bucket key =
      .error (.invalidChecksum ("Invalid checksum for " ++ file.name)) := by
  simp [validateChecksum, hget, truthy, ht, hv, hne]

/-! ### Claim theorems: the Granule Ingest Engine -/

/-- Claim C1 (counterexample): a file with embedded `checksumType=CKSUM,
`checksumValue="42"` whose source content hashes to `"999"` makes
`ingestFile` raise `InvalidChecksum` — but the object HAS been written to
the staging location of the destination store and remains there, because
the stream-copy to S3 precedes checksum validation and nothing deletes the
staged object on failure.  This refutes the claim's second conjunct ("the
file is not staged in the destination object store"). -/
theorem ingestFile_mismatch_still_staged_cex :
    (ingestFile ctxC1 [] fileC1 "stage-bkt" "replace").1 =
      .error (.invalidChecksum "Invalid checksum for g.hdf")
    ∧ s3ObjectExists (ingestFile ctxC1 [] fileC1 "stage-bkt" "replace").2.1
        "stage-bkt" "file-staging/g.hdf" = true := by
  decide

/-- Claim C1 (amended): for every file whose applicable checksum (embedded
or sidecar, as returned by `getChecksumFromFile`) differs from the digest
of the source content, `ingestFile` raises `InvalidChecksum` and returns no
file record — but the source content has already been written to the
staged destination key and is left there. -/
theorem ingestFile_invalid_checksum (ctx : GranuleIngest) (st : S3State)
    (file : GFile) (bucket dh : String) (t v : String)
    (hget : getChecksumFromFile ctx file = (some t, some v))
    (ht : t ≠ "") (hv : v ≠ "")
    (hskip : (s3ObjectExists st bucket (pjoin ctx.fileStagingDir file.name)
        && (dh == "skip")) = false)
    (hne : v ≠ ctx.hashContent t (ctx.remoteContent (pjoin file.path file.name))) :
    (ingestFile ctx st file bucket dh).1 =
      .error (.invalidChecksum ("Invalid checksum for " ++ file.name))
    ∧ s3Lookup (ingestFile ctx st file bucket dh).2.1 bucket
        (stripLeadingSlash (pjoin ctx.fileStagingDir file.name)) =
      some (ctx.remoteContent (pjoin file.path file.name)) := by
  have hvc := validateChecksum_mismatch ctx file
    (s3Put st bucket (stripLeadingSlash (pjoin ctx.fileStagingDir file.name))
      (ctx.remoteContent (pjoin file.path file.name)))
    bucket (stripLeadingSlash (pjoin ctx.fileStagingDir file.name)) t v hget ht hv
    (by rwa [s3Lookup_put, Option.getD_some])
  simp [ingestFile, hskip, hvc, s3Lookup_put]

/-- Claim C1 (witness): the amended theorem applied to the concrete
mismatching file. -/
theorem ingestFile_invalid_checksum_witness :
    (ingestFile ctxC1 [] fileC1 "stage-bkt" "replace").1 =
      .error (.invalidChecksum ("Invalid checksum for " ++ fileC1.name))
    ∧ s3Lookup (ingestFile ctxC1 [] fileC1 "stage-bkt" "replace").2.1 "stage-bkt"
        (stripLeadingSlash (pjoin ctxC1.fileStagingDir fileC1.name)) =
      some (ctxC1.remoteContent (pjoin fileC1.path fileC1.name)) :=
  ingestFile_invalid_checksum ctxC1 [] fileC1 "stage-bkt" "replace" "CKSUM" "42"
    (by decide) (by decide) (by decide) (by decide) (by decide)

/-- Claim C5: when the staged destination object already exists and
`duplicateHandling = "skip"`, `ingestFile` returns the file record
unchanged, leaves the store state untouched (hence the existing object
byte-identical), and performs no transfer — the only effect is the
existence check. -/
theorem ingestFile_skip_unchanged (ctx : GranuleIngest) (st : S3State)
    (file : GFile) (bucket : String)
    (h : s3ObjectExists st bucket (pjoin ctx.fileStagingDir file.name) = true) :
    ingestFile ctx st file bucket "skip" =
      (.ok file, st, [.existsCheck bucket (pjoin ctx.fileStagingDir file.name) true]) := by
  simp [ingestFile, h]

/-- Claim C5 (witness): skipping a concrete already-staged file leaves the
old object and the record as they were. -/
theorem ingestFile_skip_unchanged_witness :
    ingestFile ctxC5 [(("b", "file-staging/f.hdf"), "OLD")]
        ({ name := "f.hdf" } : GFile) "b" "skip" =
      (.ok ({ name := "f.hdf" } : GFile), [(("b", "file-staging/f.hdf"), "OLD")],
       [.existsCheck "b" (pjoin ctxC5.fileStagingDir "f.hdf") true]) :=
  ingestFile_skip_unchanged ctxC5 [(("b", "file-staging/f.hdf"), "OLD")]
    { name := "f.hdf" } "b" (by decide)

/-- Claim C6 (counterexample): with `duplicateHandling = "version"`, the
versioning enablement is initiated on `file.bucket` (here
`"final-bucket"`, the file's collection-configured bucket) while the copy
writes to the destination bucket parameter (`"staging-bucket"`); no
versioning operation ever touches the bucket being written to.  This
refutes the claim that versioning is ensured on the destination bucket
being written before the overwrite. -/
theorem ingestFile_version_wrong_bucket_cex :
    (ingestFile ctxC6 [] fileC6 "staging-bucket" "version").2.2 =
      [.existsCheck "staging-bucket" "stage/f.hdf" false,
       .enableVersioningStart "final-bucket",
       .putObject "staging-bucket" "stage/f.hdf"]
    ∧ ("final-bucket" : String) ≠ "staging-bucket"
    ∧ ∀ ev ∈ (ingestFile ctxC6 [] fileC6 "staging-bucket" "version").2.2,
        ev ≠ .enableVersioningStart "staging-bucket" := by
  decide

/-- Claim C6 (amended): with `duplicateHandling = "version"`, `ingestFile`
initiates bucket-versioning enablement on `file.bucket` — the file's
collection-configured bucket, not the destination bucket parameter being
written — and the initiation precedes the copy in program order; the
source does not await the enablement's completion. -/
theorem ingestFile_version_trace (ctx : GranuleIngest) (st : S3State)
    (file : GFile) (bucket : String) :
    (ingestFile ctx st file bucket "version").2.2 =
      [.existsCheck bucket (pjoin ctx.fileStagingDir file.name)
         (s3ObjectExists st bucket (pjoin ctx.fileStagingDir file.name)),
       .enableVersioningStart file.bucket,
       .putObject bucket (stripLeadingSlash (pjoin ctx.fileStagingDir file.name))] := by
  unfold ingestFile
  simp only [show (("version" : String) == "skip") = false from rfl, Bool.and_false,
    Bool.false_eq_true, if_false, show (("version" : String) == "version") = true from rfl,
    if_true]
  split <;> rfl

/-- Claim C6 (witness): the amended trace shape at the concrete input. -/
theorem ingestFile_version_trace_witness :
    (ingestFile ctxC6 [] fileC6 "staging-bucket" "version").2.2 =
      [.existsCheck "staging-bucket" (pjoin ctxC6.fileStagingDir fileC6.name)
         (s3ObjectExists [] "staging-bucket" (pjoin ctxC6.fileStagingDir fileC6.name)),
       .enableVersioningStart fileC6.bucket,
       .putObject "staging-bucket"
         (stripLeadingSlash (pjoin ctxC6.fileStagingDir fileC6.name))] :=
  ingestFile_version_trace ctxC6 [] fileC6 "staging-bucket"

/-- Claim C9: checksum validation prefers the embedded checksum when both
`checksumType` and `checksumValue` are truthy; otherwise, when a sidecar
was separated into the `checksumFiles` map under the data file's name, the
sidecar document is fetched and its first space-separated token used with
type `md5`; otherwise no checksum is found, validation is a no-op for every
store, and `ingestFile` succeeds without any checksum comparison. -/
theorem getChecksumFromFile_source_order (ctx : GranuleIngest) (file : GFile) :
    ((truthy file.checksumType && truthy file.checksumValue) = true →
      getChecksumFromFile ctx file = (file.checksumType, file.checksumValue))
    ∧ (∀ info, (truthy file.checksumType && truthy file.checksumValue) = false →
        ctx.checksumFiles.lookup file.name = some info →
        getChecksumFromFile ctx file =
          (some "md5",
           some ((sSplitOn (ctx.remoteContent (pjoin info.path info.name)) " ").headD "")))
    ∧ ((truthy file.checksumType && truthy file.checksumValue) = false →
        ctx.checksumFiles.lookup file.name = none →
        getChecksumFromFile ctx file = (none, none)
        ∧ (∀ st bucket key, validateChecksum ctx file st bucket key = .ok ())
        ∧ (∀ st bucket dh, ∃ g, (ingestFile ctx st file bucket dh).1 = .ok g)) := by
  refine ⟨fun h => by simp [getChecksumFromFile, h],
    fun info hb hl => by simp [getChecksumFromFile, hb, hl], fun hb hl => ?_⟩
  have hg : getChecksumFromFile ctx file = (none, none) := by
    simp [getChecksumFromFile, hb, hl]
  have hv : ∀ st bucket key, validateChecksum ctx file st bucket key = .ok () := by
    intro st bucket key
    simp [validateChecksum, hg, truthy]
  refine ⟨hg, hv, fun st bucket dh => ?_⟩
  by_cases hex : (s3ObjectExists st bucket (pjoin ctx.fileStagingDir file.name)
      && (dh == "skip")) = true
  · exact ⟨file, by simp [ingestFile, hex]⟩
  · rw [Bool.not_eq_true] at hex
    exact ⟨{ file with
               filename := buildS3Uri bucket (stripLeadingSlash (pjoin ctx.fileStagingDir file.name))
               fileStagingDir := some ctx.fileStagingDir
               url_path := some (getUrlPath ctx file)
               bucket := bucket },
           by simp [ingestFile, hex, hv]⟩

/-- Claim C9 (witness): the three source cases at concrete inputs — an
embedded checksum wins; a sidecar supplies `("md5", first token)`; with
neither, validation succeeds against any store. -/
theorem getChecksumFromFile_source_order_witness :
    getChecksumFromFile ctxC9
        ({ name := "g.hdf", checksumType := some "CKSUM",
           checksumValue := some "42" } : GFile) =
      (some "CKSUM", some "42")
    ∧ getChecksumFromFile ctxC9 ({ name := "g.hdf" } : GFile) = (some "md5", some "abc123")
    ∧ getChecksumFromFile ctxC9 ({ name := "other.hdf" } : GFile) = (none, none)
    ∧ validateChecksum ctxC9 ({ name := "other.hdf" } : GFile) [] "b" "k" = .ok () := by
  refine ⟨(getChecksumFromFile_source_order ctxC9 _).1 (by decide), ?_, ?_, ?_⟩
  · have h := (getChecksumFromFile_source_order ctxC9 ({ name := "g.hdf" } : GFile)).2.1
      ({ name := "g.hdf.md5", path := "granules" } : GFile) (by decide) (by decide)
    simpa using h
  · exact ((getChecksumFromFile_source_order ctxC9 _).2.2 (by decide) (by decide)).1
  · exact (((getChecksumFromFile_source_order ctxC9 _).2.2 (by decide)
      (by decide)).2.1) [] "b" "k"

/-! ### Claim theorems: `url_path` resolution -/

theorem urlPathFold_eq_reverse_find (re : RegexEngine) (name : String)
    (l : List FileRule) (acc : String) :
    l.foldl (fun acc fileDef =>
      if rtest re fileDef.regex name && fileDef.url_path != "" then fileDef.url_path
      else acc) acc =
      (match l.reverse.find? (fun r => rtest re r.regex name && r.url_path != "") with
       | some r => r.url_path
       | none => acc) := by
  induction l using List.reverseRecOn with
  | nil => rfl
  | append_singleton xs r ih =>
    rw [List.foldl_append, List.reverse_append]
    simp only [List.foldl_cons, List.foldl_nil, List.reverse_singleton,
      List.singleton_append]
    by_cases h : (rtest re r.regex name && r.url_path != "") = true
    · rw [List.find?_cons_of_pos
        (p := fun q => rtest re q.regex name && q.url_path != "") xs.reverse h, if_pos h]
    · rw [List.find?_cons_of_neg
        (p := fun q => rtest re q.regex name && q.url_path != "") xs.reverse h, if_neg h]
      exact ih

/-- Claim C7 (counterexample): two rules of the collection match
`"a.hdf"`; the first (`"hdfpat"`) matches strictly fewer names than the
second (`"all"` also matches `"b.txt"`), so the first is the more specific
matching rule — yet `getUrlPath` assigns the second rule's `url_path`,
because the source's `forEach` loop lets the last matching rule win.  This
refutes resolution by "most specific matching FileRule". -/
theorem getUrlPath_not_most_specific_cex :
    rtest testEngine "hdfpat" "a.hdf" = true
    ∧ rtest testEngine "all" "a.hdf" = true
    ∧ rtest testEngine "hdfpat" "b.txt" = false
    ∧ rtest testEngine "all" "b.txt" = true
    ∧ getUrlPath ctxC7 ({ name := "a.hdf" } : GFile) = "general-path"
    ∧ ("general-path" : String) ≠ "hdf-path" := by
  decide

/-- Claim C7 (amended): the `url_path` assigned to a file equals the
`url_path` of the LAST FileRule in collection order whose regex matches
the file name and whose `url_path` is set (non-empty), and equals the
collection-level default when no matching rule provides one. -/
theorem getUrlPath_last_matching (ctx : GranuleIngest) (file : GFile) :
    getUrlPath ctx file =
      (match ctx.collection.files.reverse.find?
          (fun r => rtest ctx.re r.regex file.name && r.url_path != "") with
       | some r => r.url_path
       | none => ctx.collection.url_path) := by
  unfold getUrlPath
  rw [urlPathFold_eq_reverse_find]
  cases hf : ctx.collection.files.reverse.find?
      (fun r => rtest ctx.re r.regex file.name && r.url_path != "") with
  | none => simp
  | some r =>
    have hr := List.find?_some hf
    rw [Bool.and_eq_true] at hr
    have : ¬(r.url_path = "") := by
      intro h
      rw [h] at hr
      simp at hr
    simp [this]

/-! ### Claim theorems: lock discipline of `download` -/

theorem downloadLoop_ends_released (ing : GranRec → Except IngestError GranRec)
    (pid gid : String) (l : List GranRec) :
    ∀ (locks : LockState) (evs : List LockEvent) (acc : List GranRec),
    ∃ g, (downloadLoop ing pid locks evs acc gid l).2.2 = evs ++ [.released pid g]
      ∧ (∀ gs, (downloadLoop ing pid locks evs acc gid l).1 = .ok gs → g = gid) := by
  induction l with
  | nil =>
    intro locks evs acc
    exact ⟨gid, rfl, fun _ _ => rfl⟩
  | cons gr rest ih =>
    intro locks evs acc
    cases hg : ing gr with
    | ok r =>
      simpa [downloadLoop, hg] using ih locks evs (r :: acc)
    | error e =>
      exact ⟨gr.granuleId, by simp [downloadLoop, hg], by simp [downloadLoop, hg]⟩

/-- Claim C2 (counterexample): on a two-granule batch where the second
granule's ingest throws, `download` acquires the lock under key
`("p", "g1")` but calls `removeLock` with key `("p", "g2")` — a different
key than the one the lock was acquired with — and the acquired lease is
still held in the final lock store.  This refutes "the release uses the
same (provider, granuleId) key with which the lock was acquired". -/
theorem download_release_key_mismatch_cex :
    (download ingFailSecond [] ⟨"p"⟩ [⟨"g1"⟩, ⟨"g2"⟩]).2.2 =
      [.acquired "p" "g1", .released "p" "g2"]
    ∧ (download ingFailSecond [] ⟨"p"⟩ [⟨"g1"⟩, ⟨"g2"⟩]).2.1 = [("p", "g1")]
    ∧ ("g2" : String) ≠ "g1" := by
  decide

/-- Claim C2 (amended): whenever `download` acquires the lock,
`lock.removeLock` is invoked on every exit path — success and per-granule
ingest failure alike — always under the same provider id; on the success
path, and when the failing granule is the first one, the released granule
id also equals the acquisition granule id (`granules[0].granuleId`).  (When
a later granule fails, the released key carries that granule's id instead,
per the counterexample.) -/
theorem download_releases_on_every_exit
    (ing : GranRec → Except IngestError GranRec) (locks : LockState)
    (provider : ProviderRec) (g0 : GranRec) (rest : List GranRec)
    (hacq : (lockProceed locks provider.id g0.granuleId).1 = true) :
    (∃ gid, (download ing locks provider (g0 :: rest)).2.2 =
        [.acquired provider.id g0.granuleId, .released provider.id gid])
    ∧ (∀ gs, (download ing locks provider (g0 :: rest)).1 = .ok gs →
        (download ing locks provider (g0 :: rest)).2.2 =
          [.acquired provider.id g0.granuleId, .released provider.id g0.granuleId])
    ∧ (∀ e, ing g0 = .error e →
        (download ing locks provider (g0 :: rest)).2.2 =
          [.acquired provider.id g0.granuleId, .released provider.id g0.granuleId]) := by
  have hd : download ing locks provider (g0 :: rest) =
      downloadLoop ing provider.id (lockProceed locks provider.id g0.granuleId).2
        [.acquired provider.id g0.granuleId] [] g0.granuleId (g0 :: rest) := by
    simp [download, hacq]
  obtain ⟨g, hg, hok⟩ := downloadLoop_ends_released ing provider.id g0.granuleId (g0 :: rest)
    (lockProceed locks provider.id g0.granuleId).2
    [.acquired provider.id g0.granuleId] []
  refine ⟨⟨g, by rw [hd]; exact hg⟩, ?_, ?_⟩
  · intro gs hgs
    rw [hd] at hgs ⊢
    rw [hg, hok gs hgs]
    rfl
  · intro e he
    rw [hd]
    simp [downloadLoop, he]

/-- Claim C2 (witness): on a successful single-granule batch, the trace is
acquisition followed by release of the same key. -/
theorem download_releases_on_every_exit_witness :
    (∃ gid, (download ingAllOk [] ⟨"p"⟩ [⟨"g1"⟩]).2.2 =
        [.acquired "p" "g1", .released "p" gid])
    ∧ (∀ gs, (download ingAllOk [] ⟨"p"⟩ [⟨"g1"⟩]).1 = .ok gs →
        (download ingAllOk [] ⟨"p"⟩ [⟨"g1"⟩]).2.2 =
          [.acquired "p" "g1", .released "p" "g1"])
    ∧ (∀ e, ingAllOk ⟨"g1"⟩ = .error e →
        (download ingAllOk [] ⟨"p"⟩ [⟨"g1"⟩]).2.2 =
          [.acquired "p" "g1", .released "p" "g1"]) :=
  download_releases_on_every_exit ingAllOk [] ⟨"p"⟩ ⟨"g1"⟩ [] (by decide)

/-! ### Claim theorems: `Discover.discover` -/

/-- Claim C4 (counterexample): with a successful listing that discovers a
file, a rejection of the per-file destination-store existence check makes
`discover` itself reject — the failure is not confined to the affected
file.  (With the same listing and a succeeding check, discovery returns a
granule batch, so the rejection is attributable to the check.)  This
refutes "discover never rejects with an error". -/
theorem discover_existence_failure_rejects_cex :
    discover ctxD listingD ecFail = .error ()
    ∧ discover ctxD listingD ecAllNew = .ok gsD := by
  decide

theorem checkNewFiles_all_exist (ec : String → String → Except Unit Bool)
    (hec : ∀ b n, ec b n = .ok true) :
    ∀ l : List DFileInfo, checkNewFiles ec l = .ok [] := by
  intro l
  induction l with
  | nil => rfl
  | cons f rest ih => simp [checkNewFiles, hec, ih]


/-- Claim C4 (amended): `discover` returns an empty batch — not an error —
when the provider listing fails (the listing exception is caught and
logged) and when no new granules remain because every candidate already
exists; but a failure of a per-file existence check rejects the whole
call (per the counterexample), rather than excluding only that file. -/
theorem discover_error_handling (ctx : DiscoverCtx) (e : Unit)
    (files : List DFile) (ec : String → String → Except Unit Bool)
    (hec : ∀ b n, ec b n = .ok true) :
    discover ctx (.error e) ec = .ok []
    ∧ discover ctx (.ok files) ec = .ok [] := by
  constructor
  · rfl
  · have h := checkNewFiles_all_exist ec hec (discoveredFilesOf ctx (.ok files))
    unfold discover
    rw [h]
    rfl

/-- Claim C4 (witness): the amended theorem at a concrete listing whose
files all already exist in the destination store. -/
theorem discover_error_handling_witness :
    discover ctxD (.error ()) ecAllExist = .ok []
    ∧ discover ctxD listingD ecAllExist = .ok [] :=
  discover_error_handling ctxD () [⟨"G1.hdf"⟩, ⟨"G1.met"⟩] ecAllExist (fun _ _ => rfl)

theorem mem_discoveredFilesOf (ctx : DiscoverCtx) (listing : Except Unit (List DFile))
    (f : DFileInfo) (hf : f ∈ discoveredFilesOf ctx listing) :
    ctx.re.rmatch ctx.collection.granuleIdExtraction f.name = some f.granuleId := by
  cases listing with
  | error e => simp [discoveredFilesOf] at hf
  | ok files =>
    simp only [discoveredFilesOf] at hf
    obtain ⟨x, hx, rfl⟩ := List.mem_map.1 hf
    obtain ⟨hx1, _⟩ := List.mem_filter.1 hx
    obtain ⟨_, hx3⟩ := List.mem_filter.1 hx1
    unfold rtest at hx3
    obtain ⟨g, hg⟩ := Option.isSome_iff_exists.1 hx3
    simp [setGranuleInfo, hg]

theorem checkNewFiles_subset (ec : String → String → Except Unit Bool) :
    ∀ (l nf : List DFileInfo), checkNewFiles ec l = .ok nf → ∀ f ∈ nf, f ∈ l := by
  intro l
  induction l with
  | nil =>
    intro nf h f hf
    simp only [checkNewFiles] at h
    obtain rfl : ([] : List DFileInfo) = nf := Except.ok.inj h
    simp at hf
  | cons x rest ih =>
    intro nf h f hf
    simp only [checkNewFiles] at h
    cases hx : ec x.bucket x.name with
    | error e => rw [hx] at h; exact absurd h (by simp)
    | ok ex =>
      rw [hx] at h
      cases hr : checkNewFiles ec rest with
      | error e => rw [hr] at h; exact absurd h (by simp)
      | ok tail =>
        rw [hr] at h
        obtain rfl := Except.ok.inj h
        have htail : ∀ y ∈ tail, y ∈ x :: rest :=
          fun y hy => List.mem_cons_of_mem x (ih tail hr y hy)
        cases ex with
        | true => exact htail f (by simpa using hf)
        | false =>
          rcases List.mem_cons.1 (by simpa using hf) with rfl | hfr
          · exact List.mem_cons_self _ _
          · exact htail f hfr

theorem mem_firstOccurrences (a : String) : ∀ l, a ∈ firstOccurrences l ↔ a ∈ l := by
  intro l
  induction l with
  | nil => simp [firstOccurrences]
  | cons b rest ih =>
    simp only [firstOccurrences, List.mem_cons, List.mem_filter]
    constructor
    · rintro (rfl | ⟨h1, _⟩)
      · exact .inl rfl
      · exact .inr (ih.1 h1)
    · rintro (rfl | h)
      · exact .inl rfl
      · by_cases hab : a = b
        · exact .inl hab
        · exact .inr ⟨ih.2 h, by simp [hab]⟩

/-- Claim C3: in the batch returned by `discover`, every file of a granule
record extracts (via the collection's `granuleIdExtraction`) to exactly
that record's granule id; records are identified by their granule id (two
records with the same id coincide); and every surviving new file is placed
in some record — hence in exactly one. -/
theorem discover_groups_by_granuleId (ctx : DiscoverCtx)
    (listing : Except Unit (List DFile)) (ec : String → String → Except Unit Bool)
    (nf : List DFileInfo) (gs : List GranuleRec)
    (hnf : checkNewFiles ec (discoveredFilesOf ctx listing) = .ok nf)
    (hgs : discover ctx listing ec = .ok gs) :
    (∀ G ∈ gs, ∀ fo ∈ G.files,
        ctx.re.rmatch ctx.collection.granuleIdExtraction fo.name = some G.granuleId)
    ∧ (∀ G ∈ gs, ∀ G' ∈ gs, G.granuleId = G'.granuleId → G = G')
    ∧ (∀ f ∈ nf, ∃ G, G ∈ gs ∧ omitGranuleId f ∈ G.files) := by
  have hgs' : gs = groupGranules ctx nf := by
    unfold discover at hgs
    rw [hnf] at hgs
    exact (Except.ok.inj hgs).symm
  subst hgs'
  have hmk : ∀ G ∈ groupGranules ctx nf,
      G = { granuleId := G.granuleId
            dataType := ctx.collection.dataType
            version := ctx.collection.version
            files := (nf.filter (fun file => file.granuleId == G.granuleId)).map
              omitGranuleId } := by
    intro G hG
    obtain ⟨gid, _, rfl⟩ := List.mem_map.1 hG
    rfl
  refine ⟨?_, ?_, ?_⟩
  · intro G hG fo hfo
    rw [hmk G hG] at hfo
    simp only [List.mem_map] at hfo
    obtain ⟨f, hfmem, rfl⟩ := hfo
    obtain ⟨hfnf, hfid⟩ := List.mem_filter.1 hfmem
    have hfid' : f.granuleId = G.granuleId := by simpa using hfid
    have hdisc := checkNewFiles_subset ec (discoveredFilesOf ctx listing) nf hnf f hfnf
    have := mem_discoveredFilesOf ctx listing f hdisc
    rw [hfid'] at this
    exact this
  · intro G hG G' hG' hgid
    rw [hmk G hG, hmk G' hG']
    rw [hgid]
  · intro f hf
    refine ⟨{ granuleId := f.granuleId
              dataType := ctx.collection.dataType
              version := ctx.collection.version
              files := (nf.filter (fun file => file.granuleId == f.granuleId)).map
                omitGranuleId }, ?_, ?_⟩
    · unfold groupGranules
      refine List.mem_map.2 ⟨f.granuleId, ?_, rfl⟩
      exact (mem_firstOccurrences f.granuleId _).2 (List.mem_map_of_mem _ hf)
    · exact List.mem_map_of_mem _ (List.mem_filter.2 ⟨hf, by simp⟩)

/-- Claim C3 (witness): a concrete discovery pass in which two files with
the same extracted id land in one granule record. -/
theorem discover_groups_by_granuleId_witness :
    (∀ G ∈ gsD, ∀ fo ∈ G.files,
        ctxD.re.rmatch ctxD.collection.granuleIdExtraction fo.name = some G.granuleId)
    ∧ (∀ G ∈ gsD, ∀ G' ∈ gsD, G.granuleId = G'.granuleId → G = G')
    ∧ (∀ f ∈ nfD, ∃ G, G ∈ gsD ∧ omitGranuleId f ∈ G.files) :=
  discover_groups_by_granuleId ctxD listingD ecAllNew nfD gsD (by decide) (by decide)

/-! ### Claim theorems: `moveGranuleFiles` -/

theorem find?_first_match {α : Type} (p : α → Bool) (pre : List α) (x : α)
    (post : List α) (hpre : ∀ d ∈ pre, p d = false) (hx : p x = true) :
    (pre ++ x :: post).find? p = some x := by
  induction pre with
  | nil =>
    rw [List.nil_append]
    exact List.find?_cons_of_pos post hx
  | cons a rest ih =>
    have ha : p a = false := hpre a (List.mem_cons_self a rest)
    rw [List.cons_append, List.find?_cons_of_neg _ (by simp [ha])]
    exact ih (fun d hd => hpre d (List.mem_cons_of_mem a hd))

theorem moveGranuleFilesStep_snd (re : RegexEngine) (destinations : List MoveDest)
    (st : S3State) (file : GFile) :
    (moveGranuleFilesStep re destinations st file).2 = moveFileRecord re destinations file := by
  unfold moveGranuleFilesStep
  cases hf : destinations.find? (fun dest => rtest re dest.regex file.name) <;> simp [hf]

theorem moveFoldFiles (re : RegexEngine) (destinations : List MoveDest) :
    ∀ (l : List GFile) (st : S3State) (acc : List GFile),
    (l.foldl (fun (acc : S3State × List GFile) f =>
        let stepped := moveGranuleFilesStep re destinations acc.1 f
        (stepped.1, acc.2 ++ [stepped.2])) (st, acc)).2 =
      acc ++ l.map (moveFileRecord re destinations) := by
  intro l
  induction l with
  | nil => intro st acc; simp
  | cons f rest ih =>
    intro st acc
    simp only [List.foldl_cons, List.map_cons]
    rw [ih, moveGranuleFilesStep_snd]
    simp

theorem moveGranuleFiles_files (re : RegexEngine) (st : S3State)
    (sourceFiles : List GFile) (destinations : List MoveDest) :
    (moveGranuleFiles re st sourceFiles destinations).files =
      sourceFiles.map (moveFileRecord re destinations) := by
  simp only [moveGranuleFiles]
  rw [moveFoldFiles]
  simp only [List.nil_append]
  split <;> rfl

/-- Claim C8: each file handed to `moveGranuleFiles` is routed by the first
destination in the ordered list whose regex matches its name: the updated
record carries that destination's bucket and a filepath beginning with that
destination's filepath (stated for destination paths already normalized,
i.e. without trailing slashes, as the `url-join` library would strip them);
a file matching no destination keeps its record unchanged (its filepath is
re-assigned from its own `filename` URI, which under the File invariant
`filename = bucket + filepath` is its original value). -/
theorem moveGranuleFiles_destination_routing (re : RegexEngine) (st : S3State)
    (sourceFiles : List GFile) (destinations : List MoveDest) (file : GFile)
    (hf : file ∈ sourceFiles) :
    moveFileRecord re destinations file ∈
      (moveGranuleFiles re st sourceFiles destinations).files
    ∧ (∀ pre dest post, destinations = pre ++ dest :: post →
        (∀ d ∈ pre, rtest re d.regex file.name = false) →
        rtest re dest.regex file.name = true →
        stripTrailingSlashes dest.filepath = dest.filepath →
        (moveFileRecord re destinations file).bucket = dest.bucket
        ∧ ∃ tail, (moveFileRecord re destinations file).filepath = dest.filepath ++ tail)
    ∧ ((∀ d ∈ destinations, rtest re d.regex file.name = false) →
        (parseS3Uri file.filename).2 = file.filepath →
        moveFileRecord re destinations file = file) := by
  refine ⟨?_, ?_, ?_⟩
  · rw [moveGranuleFiles_files]
    exact List.mem_map_of_mem _ hf
  · intro pre dest post hsplit hpre hdest hnoslash
    have hfind : destinations.find? (fun d => rtest re d.regex file.name) = some dest := by
      rw [hsplit]
      exact find?_first_match _ pre dest post hpre hdest
    unfold moveFileRecord
    rw [hfind]
    refine ⟨rfl, ?_⟩
    unfold urljoinStr
    by_cases hd : dest.filepath = ""
    · exact ⟨file.name, by simp [hd]⟩
    · exact ⟨"/" ++ file.name, by simp [hd, hnoslash]⟩
  · intro hnone hparse
    have hfind : destinations.find? (fun d => rtest re d.regex file.name) = none := by
      rw [List.find?_eq_none]
      intro d hd
      simp [hnone d hd]
    unfold moveFileRecord
    rw [hfind, hparse]

/-- Claim C8 (witness): a `.txt` file routed by the rule
`{regex: txt, bucket: "B", filepath: "P"}` ends with `bucket = "B"` and a
filepath starting with `"P"`; an `.hdf` file matching no rule keeps its
record. -/
theorem moveGranuleFiles_destination_routing_witness :
    (moveFileRecord testEngine destsC8 fileTxt).bucket = "B"
    ∧ sStartsWith (moveFileRecord testEngine destsC8 fileTxt).filepath "P" = true
    ∧ moveFileRecord testEngine destsC8 fileTxt ∈
        (moveGranuleFiles testEngine [] [fileTxt, fileHdf] destsC8).files
    ∧ moveFileRecord testEngine destsC8 fileHdf = fileHdf := by
  have h1 := moveGranuleFiles_destination_routing testEngine [] [fileTxt, fileHdf]
    destsC8 fileTxt (by decide)
  have h2 := moveGranuleFiles_destination_routing testEngine [] [fileTxt, fileHdf]
    destsC8 fileHdf (by decide)
  exact ⟨(h1.2.1 [] ⟨"txtpat", "B", "P"⟩ [] rfl (by simp) (by decide) (by decide)).1,
    by decide, h1.1, h2.2.2 (by decide) (by decide)⟩

/-- Claim C10: the embedded descriptive-metadata rewrite is performed
exactly when the (moved) file set contains exactly one `.cmr.xml` file;
with two or more, the error is logged, no metadata update happens, and the
call still resolves with the moved file records. -/
theorem moveGranuleFiles_metadata_guard (re : RegexEngine) (st : S3State)
    (sourceFiles : List GFile) (destinations : List MoveDest) :
    ((moveGranuleFiles re st sourceFiles destinations).metadataUpdatedFor.isSome = true ↔
      ((sourceFiles.map (moveFileRecord re destinations)).filter
          (fun f => sEndsWith f.name ".cmr.xml")).length = 1)
    ∧ (1 < ((sourceFiles.map (moveFileRecord re destinations)).filter
          (fun f => sEndsWith f.name ".cmr.xml")).length →
        (moveGranuleFiles re st sourceFiles destinations).metadataUpdatedFor = none
        ∧ (moveGranuleFiles re st sourceFiles destinations).multipleCmrXmlLogged = true
        ∧ (moveGranuleFiles re st sourceFiles destinations).files =
            sourceFiles.map (moveFileRecord re destinations)) := by
  simp only [moveGranuleFiles]
  rw [moveFoldFiles]
  simp only [List.nil_append]
  cases hx : (sourceFiles.map (moveFileRecord re destinations)).filter
      (fun f => sEndsWith f.name ".cmr.xml") with
  | nil => simp
  | cons x xs =>
    cases xs with
    | nil => simp
    | cons y rest => simp

end Cumulus
